import Mathlib

/-!
Verification development for the virtual-GPU device plugin
(`pkg/gpu/nvidia/server.go`).  The device model, the `Allocate` handler,
the `ListAndWatch` health loop, the `Start`/`Stop`/`Serve` lifecycle and
the crash-restart supervision loop are embedded shallowly; the theorems
below settle the spec claims against this embedding.
-/

namespace VGPU

/-- Health value `pluginapi.Healthy`. -/
def Healthy : String := "Healthy"

/-- Health value `pluginapi.Unhealthy`. -/
def Unhealthy : String := "Unhealthy"

/-- One advertised virtual device: `pluginapi.Device` restricted to the two
fields the plugin reads and writes (`ID`, `Health`). -/
structure Device where
  ID : String
  Health : String
deriving DecidableEq, Repr

/-- Modelled from the spec: `deviceExists devs id` is the existence check
called by `Allocate` ("every id in `requestedIDs` must exist in `devices`");
its definition is not part of `server.go`. -/
def deviceExists (devs : List Device) (id : String) : Bool :=
  devs.any (fun d => d.ID == id)

/-- `getDeviceById` from `server.go`: first device whose `ID` matches. -/
def getDeviceById (devs : List Device) (deviceId : String) : Option Device :=
  devs.find? (fun d => d.ID == deviceId)

/-- Modelled from the spec: `physicalOf` / `getPhysicalDeviceID` recovers the
physical identifier from a virtual id by truncating at the last separator
(`<physicalID>-<slotIndex>`); its definition is not part of `server.go`. -/
def getPhysicalDeviceID (deviceId : String) : String :=
  match (deviceId.toList.reverse.dropWhile (fun c => c ≠ '-')) with
  | [] => ""
  | _ :: tail => String.mk tail.reverse

/-- Error text of `fmt.Errorf("invalid allocation request: unknown device: %s", id)`. -/
def unknownErr (id : String) : String :=
  "invalid allocation request: unknown device: " ++ id

/-- Error text of `fmt.Errorf("invalid allocation request with unhealthy device %s", id)`. -/
def unhealthyErr (id : String) : String :=
  "invalid allocation request with unhealthy device " ++ id

/-- Insertion into `physicalDevsMap` (`if !physicalDevsMap[k] \x7b ... = true \x7d`):
the map's key set, tracked in insertion order. -/
def addKey (m : List String) (k : String) : List String :=
  if k ∈ m then m else m ++ [k]

/-- The two fixed bind mounts of the container response (host path, container path). -/
def fixedMounts : List (String × String) :=
  [("/home/kubernetes/bin/nvidia", "/usr/local/nvidia"),
   ("/home/kubernetes/bin/vulkan/icd.d", "/etc/vulkan/icd.d")]

/-- The three fixed device-node grants (host path, container path, permissions). -/
def fixedDeviceSpecs : List (String × String × String) :=
  [("/dev/nvidia0", "/dev/nvidia0", "mrw"),
   ("/dev/nvidiactl", "/dev/nvidiactl", "mrw"),
   ("/dev/nvidia-uvm", "/dev/nvidia-uvm", "mrw")]

/-- `pluginapi.ContainerAllocateResponse` restricted to what `Allocate`
fills in; `visibleDevs` is the key list produced by ranging over
`physicalDevsMap`, and `env` is the `NVIDIA_VISIBLE_DEVICES` value. -/
structure ContainerResponse where
  visibleDevs : List String
  env : String
  mounts : List (String × String)
  devices : List (String × String × String)
deriving DecidableEq, Repr

/-- Inner loop of `Allocate` over one container's `DevicesIDs`, threading
`physicalDevsMap` (as its insertion-ordered key list `m`): existence check,
map insert, lookup, health check.  In the source the map insert happens
before the lookup and health check; since an error aborts the whole call,
the insert is observable only on the success continuation, where it is
threaded here. -/
def validateIds (devs : List Device) : List String → List String → Except String (List String)
  | m, [] => .ok m
  | m, id :: rest =>
    if deviceExists devs id = false then
      .error (unknownErr id)
    else
      match getDeviceById devs id with
      | none => .error (unknownErr id)
      | some dev =>
        if dev.Health = Healthy then
          validateIds devs (addKey m (getPhysicalDeviceID id)) rest
        else .error (unhealthyErr id)

/-- Outer loop of `Allocate` over `reqs.ContainerRequests`.  Faithful to the
source, `physicalDevsMap` (`m`) is created once before this loop and is
never reset between containers.  `order` models Go's unspecified map
iteration order: ranging over the map yields `order m1`, some permutation
of the key list. -/
def allocateLoop (order : List String → List String) (devs : List Device) :
    List String → List (List String) → Except String (List ContainerResponse)
  | _, [] => .ok []
  | m, req :: rest =>
    match validateIds devs m req with
    | .error e => .error e
    | .ok m1 =>
      match allocateLoop order devs m1 rest with
      | .error e => .error e
      | .ok rs =>
        .ok ({ visibleDevs := order m1,
               env := String.intercalate "," (order m1),
               mounts := fixedMounts,
               devices := fixedDeviceSpecs } :: rs)

/-- `Allocate` from `server.go`: the empty map, then the container loop. -/
def Allocate (order : List String → List String) (devs : List Device)
    (reqs : List (List String)) : Except String (List ContainerResponse) :=
  allocateLoop order devs [] reqs

/-- Whether an `Except` is an error. -/
def isError : Except String α → Bool
  | .error _ => true
  | .ok _ => false

/-- The key list of `physicalDevsMap` after inserting the physical ids of
`ids` into a map whose key list is `m`. -/
def physFold (m : List String) (ids : List String) : List String :=
  ids.foldl (fun acc id => addKey acc (getPhysicalDeviceID id)) m

/-- The deduplicated physical identifiers referenced by `ids` (spec §4.2
"Mapping"), in first-seen order. -/
def dedupPhysicals (ids : List String) : List String :=
  physFold [] ids

/-- The health-event mutation of `ListAndWatch`: `d.Health = pluginapi.Unhealthy`
performed in place on the device record named by the event. -/
def markUnhealthy (devs : List Device) (id : String) : List Device :=
  devs.map (fun d => if d.ID = id then { d with Health := Unhealthy } else d)

/-- The two events the `ListAndWatch` select waits on: the shutdown signal
and a health event naming a device. -/
inductive LWEvent where
  | stopSignal
  | health (id : String)

/-- The `ListAndWatch` select loop: a health event mutates the named device
and re-sends the full current device sequence; the shutdown signal returns.
The result is the list of sends the loop performs. -/
def lwLoop : List Device → List LWEvent → List (List Device)
  | _, [] => []
  | _, LWEvent.stopSignal :: _ => []
  | devs, LWEvent.health id :: rest =>
    markUnhealthy devs id :: lwLoop (markUnhealthy devs id) rest

/-- `ListAndWatch` from `server.go`: an initial full send, then the loop. -/
def listAndWatch (devs : List Device) (events : List LWEvent) : List (List Device) :=
  devs :: lwLoop devs events

/-- The operations that touch the shared device sequence: a health event of
the streaming loop, an `Allocate` call (reads `m.devs`, writes nothing) and
`Stop` (never touches `m.devs`). -/
inductive Op where
  | healthEvent (id : String)
  | allocate (reqs : List (List String))
  | stopOp

/-- Effect of one operation on the device sequence: only the health-event
handler mutates it. -/
def applyOp (devs : List Device) : Op → List Device
  | Op.healthEvent id => markUnhealthy devs id
  | Op.allocate _ => devs
  | Op.stopOp => devs

/-- Effect of a sequence of operations on the device sequence. -/
def applyOps (devs : List Device) (ops : List Op) : List Device :=
  ops.foldl applyOp devs

/-- Lifecycle state of the plugin: whether the gRPC server is live
(`m.server != nil`), whether the `stop` channel has been closed, and whether
the socket file exists. -/
structure PluginState where
  serverLive : Bool
  stopClosed : Bool
  socketExists : Bool
deriving DecidableEq, Repr

/-- Go's `close` on a channel: closing an already-closed channel panics. -/
def closeChan (alreadyClosed : Bool) : Except String Unit :=
  if alreadyClosed then .error "close of closed channel" else .ok ()

/-- `cleanup` from `server.go`: remove the socket file; absence is not an
error. -/
def cleanup (s : PluginState) : PluginState :=
  { s with socketExists := false }

/-- `Stop` from `server.go`: a no-op when `m.server == nil`; otherwise stop
the server, nil it, close the `stop` channel and remove the socket.
`Except.error` models a panic (close of a closed channel). -/
def Stop (s : PluginState) : Except String PluginState :=
  if s.serverLive = false then .ok s
  else
    match closeChan s.stopClosed with
    | .error e => .error e
    | .ok _ => .ok (cleanup { s with serverLive := false, stopClosed := true })

/-- `Start` from `server.go`: cleanup, bind the socket, launch the server,
probe it.  `bindOk` and `probeOk` model the exogenous outcomes of
`net.Listen` and the self-dial.  Result: updated state and the returned
error, if any (on a failed probe the server goroutine stays live, as in the
source). -/
def Start (s : PluginState) (bindOk probeOk : Bool) : PluginState × Option String :=
  let s1 := cleanup s
  if bindOk = false then (s1, some "bind error")
  else
    let s2 : PluginState := { s1 with socketExists := true, serverLive := true }
    if probeOk = false then (s2, some "startup timeout")
    else (s2, none)

/-- `Register` from `server.go`: a one-shot RPC whose outcome is exogenous. -/
def Register (registerOk : Bool) : Option String :=
  if registerOk then none else some "registration failed"

/-- `Serve` from `server.go`: `Start`, then `Register`; on registration
failure it calls `Stop` and returns the registration error.
`Except.error` models a panic inside `Stop`. -/
def Serve (s : PluginState) (bindOk probeOk registerOk : Bool) :
    Except String (PluginState × Option String) :=
  match Start s bindOk probeOk with
  | (s1, some e) => .ok (s1, some e)
  | (s1, none) =>
    match Register registerOk with
    | some e =>
      match Stop s1 with
      | .error p => .error p
      | .ok s2 => .ok (s2, some e)
    | none => .ok (s1, none)

/-- State of the accept-loop supervision in `Start`'s goroutine:
`restartCount` and whether `log.Fatal` has fired. -/
structure SupState where
  restartCount : Nat
  fatal : Bool
deriving DecidableEq, Repr

/-- One crash of the accept loop, `gap` time units after the previous crash
(for the first crash, after `Start`).  Faithful to the source: the budget
check `restartCount > 5` runs before the counter update; a gap above 3600
resets the counter to 1, otherwise it is incremented. -/
def supStep (s : SupState) (gap : Nat) : SupState :=
  if s.fatal = true then s
  else if 5 < s.restartCount then { s with fatal := true }
  else if 3600 < gap then { restartCount := 1, fatal := false }
  else { restartCount := s.restartCount + 1, fatal := false }

/-- The supervision loop over a whole crash sequence, from the initial
state `restartCount = 0`. -/
def supRun (gaps : List Nat) : SupState :=
  gaps.foldl supStep { restartCount := 0, fatal := false }

/-- A fatal supervision state is absorbing: once `log.Fatal` has fired the
loop does nothing more. -/
lemma supStep_fatal (s : SupState) (g : Nat) (h : s.fatal = true) : supStep s g = s := by
  simp [supStep, h]

/-- Folding further crashes over a fatal state leaves it fatal. -/
lemma supFold_fatal (gaps : List Nat) (s : SupState) (h : s.fatal = true) :
    gaps.foldl supStep s = s := by
  induction gaps with
  | nil => rfl
  | cons g rest ih => rw [List.foldl_cons, supStep_fatal s g h]; exact ih

/-- With every gap below the window, each crash increments the counter as
long as the budget lasts. -/
lemma supFold_small (gaps : List Nat) : ∀ n : Nat, (∀ g ∈ gaps, g < 3600) →
    n + gaps.length ≤ 6 →
    gaps.foldl supStep { restartCount := n, fatal := false }
      = { restartCount := n + gaps.length, fatal := false } := by
  induction gaps with
  | nil => intro n _ _; simp
  | cons g rest ih =>
    intro n h hn
    have hg : g < 3600 := h g (List.mem_cons_self g rest)
    have h5 : ¬ 5 < n := by simp only [List.length_cons] at hn; omega
    have h36 : ¬ 3600 < g := by omega
    have hstep : supStep { restartCount := n, fatal := false } g
        = { restartCount := n + 1, fatal := false } := by
      simp [supStep, h5, h36]
    rw [List.foldl_cons, hstep,
      ih (n + 1) (fun x hx => h x (List.mem_cons_of_mem g hx))
        (by simp only [List.length_cons] at hn; omega)]
    simp only [List.length_cons]
    congr 1
    omega

/-- With every gap above the window the counter keeps resetting to 1 and the
budget is never exceeded. -/
lemma supFold_large (gaps : List Nat) : ∀ s : SupState, (∀ g ∈ gaps, 3600 < g) →
    s.fatal = false → s.restartCount ≤ 5 →
    (gaps.foldl supStep s).fatal = false := by
  induction gaps with
  | nil => intro s _ hf _; simpa using hf
  | cons g rest ih =>
    intro s h hf hc
    have hg : 3600 < g := h g (List.mem_cons_self g rest)
    have h5 : ¬ 5 < s.restartCount := by omega
    have hstep : supStep s g = { restartCount := 1, fatal := false } := by
      simp [supStep, hf, h5, hg]
    rw [List.foldl_cons, hstep]
    exact ih { restartCount := 1, fatal := false }
      (fun x hx => h x (List.mem_cons_of_mem g hx)) rfl (by decide)

end VGPU

namespace VGPU

/-- Claim C10: an `Allocate` call whose batch contains no container request
succeeds and returns an empty list of container grants, whatever the device
sequence and its health. -/
theorem C10_empty_batch (order : List String → List String) (devs : List Device) :
    Allocate order devs [] = Except.ok [] := rfl

/-- Claim C7: `Stop` is idempotent.  If a `Stop` call returns without error
or panic, a second `Stop` on the resulting state returns no error, does not
panic, and changes nothing — in particular the `stop` channel is not closed
a second time (the guard `m.server == nil` makes the call a no-op). -/
theorem C7_stop_idempotent (s s1 : PluginState) (h : Stop s = Except.ok s1) :
    Stop s1 = Except.ok s1 := by
  obtain ⟨a, b, c⟩ := s
  cases a <;> cases b <;> simp_all [Stop, closeChan, cleanup] <;> simp [← h, Stop]

/-- Claim C7 witness: `Stop` applied twice from a live server state. -/
theorem C7_witness :
    Stop { serverLive := false, stopClosed := true, socketExists := false }
      = Except.ok { serverLive := false, stopClosed := true, socketExists := false } :=
  C7_stop_idempotent
    { serverLive := true, stopClosed := false, socketExists := true }
    { serverLive := false, stopClosed := true, socketExists := false } (by rfl)

/-- Claim C8: when `Start` succeeds (bind and probe ok) but registration
fails, `Serve` returns the registration error and first unwinds back to
`Stopped`: the protocol server is stopped and the socket file is released,
so no live endpoint remains. -/
theorem C8_serve_unwind (s : PluginState) (h : s.stopClosed = false) :
    Serve s true true false
      = Except.ok ({ serverLive := false, stopClosed := true, socketExists := false },
          some "registration failed") := by
  obtain ⟨a, b, c⟩ := s
  cases b
  · rfl
  · exact absurd h (by simp)

/-- Claim C8 witness: a fresh live state, registration failing. -/
theorem C8_witness :
    Serve { serverLive := false, stopClosed := false, socketExists := true } true true false
      = Except.ok ({ serverLive := false, stopClosed := true, socketExists := false },
          some "registration failed") :=
  C8_serve_unwind
    { serverLive := false, stopClosed := false, socketExists := true } rfl

/-- Claim C4 counterexample: six accept-loop crashes, each 1 time unit after
the previous one (all gaps below 3600), do not terminate the process — the
claim says the process terminates fatally on the 6th crash, but the budget
check `restartCount > 5` runs before the counter update, so after the 6th
crash the counter is 6 and `log.Fatal` has not fired; the 7th crash is the
fatal one. -/
theorem C4_counterexample :
    (supRun [1, 1, 1, 1, 1, 1]).fatal = false ∧
    (supRun [1, 1, 1, 1, 1, 1, 1]).fatal = true := by decide

/-- Claim C4 (amended): with every inter-crash gap below 3600 time units the
process survives the first 6 crashes and terminates fatally from the 7th
crash on; with every gap above 3600 time units it never terminates from
this rule, because the counter resets on each such gap. -/
theorem C4_amended (gaps : List Nat) :
    ((∀ g ∈ gaps, g < 3600) →
      (gaps.length ≤ 6 → (supRun gaps).fatal = false) ∧
      (7 ≤ gaps.length → (supRun gaps).fatal = true)) ∧
    ((∀ g ∈ gaps, 3600 < g) → (supRun gaps).fatal = false) := by
  constructor
  · intro hsmall
    constructor
    · intro hlen
      rw [supRun, supFold_small gaps 0 hsmall (by omega)]
    · intro hlen
      have hsplit : supRun gaps
          = (gaps.drop 6).foldl supStep ((gaps.take 6).foldl supStep
              { restartCount := 0, fatal := false }) := by
        rw [supRun, ← List.foldl_append, List.take_append_drop]
      have htake : (gaps.take 6).length = 6 := by
        rw [List.length_take]; omega
      rw [hsplit, supFold_small (gaps.take 6) 0
        (fun g hg => hsmall g (List.take_subset 6 gaps hg)) (by omega), htake]
      cases hdrop : gaps.drop 6 with
      | nil =>
        exfalso
        have hlen6 : (gaps.drop 6).length = 0 := by rw [hdrop]; rfl
        rw [List.length_drop] at hlen6
        omega
      | cons g rest =>
        have hg : g < 3600 := by
          refine hsmall g (List.drop_subset 6 gaps ?_)
          rw [hdrop]
          exact List.mem_cons_self g rest
        have hstep : supStep { restartCount := 0 + 6, fatal := false } g
            = { restartCount := 6, fatal := true } := by
          simp [supStep]
        rw [List.foldl_cons, hstep, supFold_fatal rest _ rfl]
  · intro hlarge
    exact supFold_large gaps { restartCount := 0, fatal := false } hlarge rfl (by decide)

/-- Claim C4 witness: 7 rapid crashes are fatal, 9 well-spaced crashes are
not. -/
theorem C4_witness :
    (supRun [1, 1, 1, 1, 1, 1, 1]).fatal = true ∧
    (supRun [3700, 3700, 3700, 3700, 3700, 3700, 3700, 3700, 3700]).fatal = false :=
  ⟨((C4_amended [1, 1, 1, 1, 1, 1, 1]).1 (by decide)).2 (by decide),
   (C4_amended [3700, 3700, 3700, 3700, 3700, 3700, 3700, 3700, 3700]).2 (by decide)⟩

/-- Claim C9: the `NVIDIA_VISIBLE_DEVICES` value is built by ranging over a
Go map (`for visibleDev := range physicalDevsMap`), whose iteration order
is unspecified and randomized between runs.  Two admissible iteration
orders of the same key set — identity and reversal, both permutations —
give different comma-joined strings for the same request batch and device
state, so the value is not deterministic across runs. -/
theorem C9_order_dependent :
    Allocate (fun l => l)
        [{ ID := "gpu0-0", Health := Healthy }, { ID := "gpu1-0", Health := Healthy }]
        [["gpu0-0", "gpu1-0"]]
      = Except.ok [{ visibleDevs := ["gpu0", "gpu1"], env := "gpu0,gpu1",
                     mounts := fixedMounts, devices := fixedDeviceSpecs }] ∧
    Allocate (fun l => List.reverse l)
        [{ ID := "gpu0-0", Health := Healthy }, { ID := "gpu1-0", Health := Healthy }]
        [["gpu0-0", "gpu1-0"]]
      = Except.ok [{ visibleDevs := ["gpu1", "gpu0"], env := "gpu1,gpu0",
                     mounts := fixedMounts, devices := fixedDeviceSpecs }] ∧
    (List.reverse ["gpu0", "gpu1"]).Perm ["gpu0", "gpu1"] ∧
    ("gpu0,gpu1" : String) ≠ "gpu1,gpu0" := by
  refine ⟨rfl, rfl, ?_, by decide⟩
  decide

/-- A successful lookup implies the existence check succeeds. -/
lemma find_imp_exists (devs : List Device) (id : String) (d : Device)
    (h : getDeviceById devs id = some d) : deviceExists devs id = true := by
  rw [getDeviceById] at h
  have hmem : d ∈ devs := List.mem_of_find?_eq_some h
  have hpd := List.find?_some h
  rw [deviceExists]
  exact List.any_eq_true.2 ⟨d, hmem, hpd⟩

/-- A successful existence check implies the lookup finds a device. -/
lemma exists_imp_find (devs : List Device) (id : String)
    (h : deviceExists devs id = true) : ∃ d, getDeviceById devs id = some d := by
  rw [deviceExists] at h
  obtain ⟨d, hdmem, hdp⟩ := List.any_eq_true.1 h
  have hsome : (devs.find? (fun x => x.ID == id)).isSome = true := by
    rw [List.find?_isSome]
    exact ⟨d, hdmem, hdp⟩
  obtain ⟨dev, hdev⟩ := Option.isSome_iff_exists.1 hsome
  exact ⟨dev, hdev⟩

/-- A validation pass that succeeds has visited every requested id: each one
exists in the device sequence and is Healthy. -/
lemma validateIds_ok_valid (devs : List Device) :
    ∀ (ids m m1 : List String), validateIds devs m ids = Except.ok m1 →
      ∀ id ∈ ids, deviceExists devs id = true ∧
        ∃ d, getDeviceById devs id = some d ∧ d.Health = Healthy := by
  intro ids
  induction ids with
  | nil => intro m m1 _ id hid; exact absurd hid (by simp)
  | cons j rest ih =>
    intro m m1 h id hid
    rw [validateIds] at h
    split at h
    · exact absurd h (by simp)
    next hex =>
      have hexT : deviceExists devs j = true := by
        revert hex; cases deviceExists devs j <;> simp
      split at h
      · exact absurd h (by simp)
      next dev hfind =>
        split at h
        next hH =>
          rcases List.mem_cons.1 hid with rfl | hmem
          · exact ⟨hexT, dev, hfind, hH⟩
          · exact ih _ m1 h id hmem
        next hH => exact absurd h (by simp)

/-- A validation pass that succeeds returns exactly the input key list
extended with the physical ids of the visited requests, deduplicated in
first-seen order. -/
lemma validateIds_ok_keys (devs : List Device) :
    ∀ (ids m m1 : List String), validateIds devs m ids = Except.ok m1 →
      m1 = physFold m ids := by
  intro ids
  induction ids with
  | nil =>
    intro m m1 h
    simp only [validateIds, Except.ok.injEq] at h
    subst h
    rfl
  | cons j rest ih =>
    intro m m1 h
    rw [validateIds] at h
    split at h
    · exact absurd h (by simp)
    next hex =>
      split at h
      · exact absurd h (by simp)
      next dev hfind =>
        split at h
        next hH => exact ih (addKey m (getPhysicalDeviceID j)) m1 h
        next hH => exact absurd h (by simp)

/-- A successful `Allocate` has validated every id of every container
request in the batch. -/
lemma allocateLoop_ok_valid (order : List String → List String) (devs : List Device) :
    ∀ (reqs : List (List String)) (m : List String) (rs : List ContainerResponse),
      allocateLoop order devs m reqs = Except.ok rs →
      ∀ req ∈ reqs, ∀ id ∈ req, deviceExists devs id = true ∧
        ∃ d, getDeviceById devs id = some d ∧ d.Health = Healthy := by
  intro reqs
  induction reqs with
  | nil => intro m rs _ req hreq; exact absurd hreq (by simp)
  | cons req0 rest ih =>
    intro m rs h req hreq
    rw [allocateLoop] at h
    split at h
    · exact absurd h (by simp)
    next m1 hval =>
      split at h
      · exact absurd h (by simp)
      next rs1 hrec =>
        rcases List.mem_cons.1 hreq with rfl | hmem
        · exact fun id hid => validateIds_ok_valid devs req m m1 hval id hid
        · exact ih m1 rs1 hrec req hmem

/-- Splitting a physical-id fold over an append. -/
lemma physFold_append (m a b : List String) :
    physFold m (a ++ b) = physFold (physFold m a) b := by
  simp [physFold, List.foldl_append]

/-- `addKey` preserves key uniqueness. -/
lemma addKey_nodup (m : List String) (k : String) (h : m.Nodup) : (addKey m k).Nodup := by
  rw [addKey]
  split
  · exact h
  next hk =>
    refine h.append (List.nodup_singleton k) ?_
    intro a ha hb
    simp only [List.mem_singleton] at hb
    subst hb
    exact hk ha

/-- The key list of `physicalDevsMap` stays duplicate-free. -/
lemma physFold_nodup (ids : List String) : ∀ m : List String, m.Nodup →
    (physFold m ids).Nodup := by
  induction ids with
  | nil => intro m h; exact h
  | cons j rest ih =>
    intro m h
    exact ih (addKey m (getPhysicalDeviceID j)) (addKey_nodup m _ h)

/-- Content of a successful `Allocate`: one response per container request;
the i-th response's visible-device list is the map iteration order applied
to the accumulated key list of the first i+1 container requests, and its
env value is that list comma-joined. -/
lemma allocateLoop_content (order : List String → List String) (devs : List Device) :
    ∀ (reqs : List (List String)) (m : List String) (rs : List ContainerResponse),
      allocateLoop order devs m reqs = Except.ok rs →
      rs.length = reqs.length ∧
      ∀ (i : Nat) (hi : i < rs.length),
        (rs.get ⟨i, hi⟩).visibleDevs = order (physFold m ((reqs.take (i + 1)).flatten)) ∧
        (rs.get ⟨i, hi⟩).env = String.intercalate "," ((rs.get ⟨i, hi⟩).visibleDevs) := by
  intro reqs
  induction reqs with
  | nil =>
    intro m rs h
    simp only [allocateLoop, Except.ok.injEq] at h
    subst h
    exact ⟨rfl, fun i hi => absurd hi (by simp)⟩
  | cons req0 rest ih =>
    intro m rs h
    rw [allocateLoop] at h
    split at h
    · exact absurd h (by simp)
    next m1 hval =>
      split at h
      · exact absurd h (by simp)
      next rs1 hrec =>
        simp only [Except.ok.injEq] at h
        subst h
        obtain ⟨hlen, hcont⟩ := ih m1 rs1 hrec
        have hkeys : m1 = physFold m req0 := validateIds_ok_keys devs req0 m m1 hval
        refine ⟨by simp [hlen], fun i hi => ?_⟩
        cases i with
        | zero =>
          refine ⟨?_, rfl⟩
          show order m1 = order (physFold m (((req0 :: rest).take (0 + 1)).flatten))
          have hjoin0 : (((req0 :: rest).take (0 + 1)).flatten : List String) = req0 := by
            simp
          rw [hjoin0, hkeys]
        | succ j =>
          have hj : j < rs1.length := by
            simp only [List.length_cons] at hi
            omega
          obtain ⟨hv, he⟩ := hcont j hj
          refine ⟨?_, he⟩
          have hjoin : (((req0 :: rest).take (j + 1 + 1)).flatten : List String)
              = req0 ++ (rest.take (j + 1)).flatten := by
            simp
          show (rs1.get ⟨j, hj⟩).visibleDevs
              = order (physFold m (((req0 :: rest).take (j + 1 + 1)).flatten))
          rw [hv, hkeys, ← physFold_append, ← hjoin]

/-- Claim C2: if any requested id of any container-group in the batch is
unknown or names an unhealthy device, the whole `Allocate` call returns an
error — so no response list and no grant is produced for any container of
the batch, including those whose responses were built before the failing
one (the error return discards them). -/
theorem C2_batch_abort (order : List String → List String) (devs : List Device)
    (reqs : List (List String))
    (h : ∃ req ∈ reqs, ∃ id ∈ req, deviceExists devs id = false ∨
      ∃ d, getDeviceById devs id = some d ∧ d.Health ≠ Healthy) :
    isError (Allocate order devs reqs) = true := by
  obtain ⟨req, hreq, id, hid, hbad⟩ := h
  cases hres : Allocate order devs reqs with
  | error e => rfl
  | ok rs =>
    exfalso
    obtain ⟨hex, d, hfind, hH⟩ :=
      allocateLoop_ok_valid order devs reqs [] rs hres req hreq id hid
    rcases hbad with hbad | ⟨d2, hfind2, hH2⟩
    · rw [hex] at hbad
      cases hbad
    · rw [hfind] at hfind2
      exact hH2 (Option.some.inj hfind2 ▸ hH)

/-- Claim C2 witness: a healthy first container request does not save a
batch whose second container request names an unknown device. -/
theorem C2_witness :
    isError (Allocate (fun l => l) [{ ID := "gpu0-0", Health := Healthy }]
      [["gpu0-0"], ["nope"]]) = true :=
  C2_batch_abort (fun l => l) [{ ID := "gpu0-0", Health := Healthy }]
    [["gpu0-0"], ["nope"]]
    ⟨["nope"], by simp, "nope", by simp, Or.inl rfl⟩

/-- Claim C3 counterexample: in a request whose first id names an existing
but Unhealthy device and whose second id is unknown, `Allocate` fails with
the UnhealthyDevice error, not the UnknownDevice error — validation is
per-id sequential (existence then health for each id in turn), not
existence-for-all-ids first. -/
theorem C3_counterexample :
    Allocate (fun l => l) [{ ID := "gpu0-0", Health := Unhealthy }] [["gpu0-0", "zzz"]]
      = Except.error (unhealthyErr "gpu0-0") ∧
    unhealthyErr "gpu0-0" ≠ unknownErr "zzz" ∧
    deviceExists [{ ID := "gpu0-0", Health := Unhealthy }] "zzz" = false ∧
    deviceExists [{ ID := "gpu0-0", Health := Unhealthy }] "gpu0-0" = true :=
  ⟨rfl, by decide, rfl, rfl⟩

/-- Stepping the validation loop over a prefix of existing Healthy ids up to
the first unknown id yields the UnknownDevice error. -/
lemma validateIds_unknown (devs : List Device) (id : String) :
    ∀ (pre m : List String),
      (∀ j ∈ pre, ∃ d, getDeviceById devs j = some d ∧ d.Health = Healthy) →
      deviceExists devs id = false →
      ∀ post, validateIds devs m (pre ++ id :: post) = Except.error (unknownErr id) := by
  intro pre
  induction pre with
  | nil =>
    intro m _ hid post
    rw [List.nil_append, validateIds, if_pos hid]
  | cons j rest ih =>
    intro m hpre hid post
    obtain ⟨d, hfind, hH⟩ := hpre j (List.mem_cons_self j rest)
    have hex := find_imp_exists devs j d hfind
    rw [List.cons_append]
    rw [show validateIds devs m (j :: (rest ++ id :: post))
        = validateIds devs (addKey m (getPhysicalDeviceID j)) (rest ++ id :: post) from by
      simp [validateIds, hex, hfind, hH]]
    exact ih (addKey m (getPhysicalDeviceID j))
      (fun x hx => hpre x (List.mem_cons_of_mem j hx)) hid post

/-- Claim C3 (amended): a container request containing an unknown id fails
with the UnknownDevice error for the first unknown id, provided every id
before it in the request exists and is Healthy.  Per id, existence is
checked before health; but an earlier existing-but-Unhealthy id aborts with
the UnhealthyDevice error before the unknown id is reached. -/
theorem C3_amended (order : List String → List String) (devs : List Device)
    (pre : List String) (id : String) (post : List String) (rest : List (List String))
    (hpre : ∀ j ∈ pre, ∃ d, getDeviceById devs j = some d ∧ d.Health = Healthy)
    (hid : deviceExists devs id = false) :
    Allocate order devs ((pre ++ id :: post) :: rest) = Except.error (unknownErr id) := by
  show allocateLoop order devs [] ((pre ++ id :: post) :: rest) = _
  rw [allocateLoop, validateIds_unknown devs id pre [] hpre hid post]

/-- Claim C3 witness: a Healthy existing id followed by an unknown id. -/
theorem C3_witness :
    Allocate (fun l => l) [{ ID := "a-0", Health := Healthy }] [["a-0", "zzz"]]
      = Except.error (unknownErr "zzz") :=
  C3_amended (fun l => l) [{ ID := "a-0", Health := Healthy }] ["a-0"] "zzz" [] []
    (by
      intro j hj
      simp only [List.mem_singleton] at hj
      subst hj
      exact ⟨{ ID := "a-0", Health := Healthy }, rfl, rfl⟩)
    rfl

/-- Claim C1 counterexample: in a two-container batch where the first
container requests `gpu0-0` (physical `gpu0`) and the second requests
`gpu1-0` (physical `gpu1`), the second container's `NVIDIA_VISIBLE_DEVICES`
is `"gpu0,gpu1"`: it contains `gpu0`, referenced only by the sibling
container-group's request — `physicalDevsMap` is created once before the
container loop and never reset between containers. -/
theorem C1_counterexample :
    Allocate (fun l => l)
        [{ ID := "gpu0-0", Health := Healthy }, { ID := "gpu1-0", Health := Healthy }]
        [["gpu0-0"], ["gpu1-0"]]
      = Except.ok
          [{ visibleDevs := ["gpu0"], env := "gpu0",
             mounts := fixedMounts, devices := fixedDeviceSpecs },
           { visibleDevs := ["gpu0", "gpu1"], env := "gpu0,gpu1",
             mounts := fixedMounts, devices := fixedDeviceSpecs }] ∧
    ["gpu1-0"].map getPhysicalDeviceID = ["gpu1"] ∧
    ("gpu0" ∈ (["gpu0", "gpu1"] : List String)) ∧
    ("gpu0" ∉ (["gpu1"] : List String)) :=
  ⟨rfl, rfl, by decide, by decide⟩

/-- Claim C1 (amended): on a successful `Allocate`, each container-group's
grant lists, each exactly once, the deduplicated physical identifiers
referenced by its own and all earlier container-groups' requested ids in
the batch (the dedup map accumulates across the batch), in some map
iteration order; the env value is that list comma-joined. -/
theorem C1_amended (order : List String → List String)
    (hord : ∀ l : List String, (order l).Perm l)
    (devs : List Device) (reqs : List (List String)) (rs : List ContainerResponse)
    (hok : Allocate order devs reqs = Except.ok rs) :
    rs.length = reqs.length ∧
    ∀ (i : Nat) (hi : i < rs.length),
      (rs.get ⟨i, hi⟩).env = String.intercalate "," ((rs.get ⟨i, hi⟩).visibleDevs) ∧
      ((rs.get ⟨i, hi⟩).visibleDevs).Nodup ∧
      ((rs.get ⟨i, hi⟩).visibleDevs).Perm (dedupPhysicals ((reqs.take (i + 1)).flatten)) := by
  obtain ⟨hlen, hcont⟩ := allocateLoop_content order devs reqs [] rs hok
  refine ⟨hlen, fun i hi => ?_⟩
  obtain ⟨hv, he⟩ := hcont i hi
  have hperm : ((rs.get ⟨i, hi⟩).visibleDevs).Perm (physFold [] ((reqs.take (i + 1)).flatten)) := by
    rw [hv]
    exact hord _
  have hnd : (physFold [] ((reqs.take (i + 1)).flatten)).Nodup :=
    physFold_nodup _ [] List.nodup_nil
  exact ⟨he, hperm.nodup_iff.mpr hnd, hperm⟩

/-- Claim C1 witness: the amended theorem applied to the two-container
batch of the counterexample, at the second container. -/
theorem C1_witness :
    (([{ visibleDevs := ["gpu0"], env := "gpu0",
         mounts := fixedMounts, devices := fixedDeviceSpecs },
       { visibleDevs := ["gpu0", "gpu1"], env := "gpu0,gpu1",
         mounts := fixedMounts, devices := fixedDeviceSpecs }] : List ContainerResponse).get
        ⟨1, by decide⟩).visibleDevs.Perm
      (dedupPhysicals (([["gpu0-0"], ["gpu1-0"]].take (1 + 1)).flatten)) :=
  ((C1_amended (fun l => l) (fun l => List.Perm.refl l)
      [{ ID := "gpu0-0", Health := Healthy }, { ID := "gpu1-0", Health := Healthy }]
      [["gpu0-0"], ["gpu1-0"]]
      [{ visibleDevs := ["gpu0"], env := "gpu0",
         mounts := fixedMounts, devices := fixedDeviceSpecs },
       { visibleDevs := ["gpu0", "gpu1"], env := "gpu0,gpu1",
         mounts := fixedMounts, devices := fixedDeviceSpecs }]
      rfl).2 1 (by decide)).2.2

/-- The health-event mutation never changes a device's identifier. -/
lemma markUnhealthy_preserves_id (d : Device) (id : String) :
    (if d.ID = id then { d with Health := Unhealthy } else d).ID = d.ID := by
  split <;> rfl

/-- After the health-event mutation, every device carrying the event's id is
Unhealthy. -/
lemma markUnhealthy_marked (devs : List Device) (id : String) :
    ∀ d ∈ markUnhealthy devs id, d.ID = id → d.Health = Unhealthy := by
  intro d hd hdid
  simp only [markUnhealthy] at hd
  obtain ⟨d0, hd0, rfl⟩ := List.mem_map.1 hd
  by_cases h0 : d0.ID = id
  · simp [h0]
  · rw [if_neg h0] at hdid ⊢
    exact absurd hdid h0

/-- `Allocate` on a one-id request naming an existing non-Healthy device
fails with the UnhealthyDevice error. -/
lemma allocate_unhealthy (order : List String → List String) (devs : List Device)
    (id : String) (dev : Device) (hfind : getDeviceById devs id = some dev)
    (hH : ¬ dev.Health = Healthy) :
    Allocate order devs [[id]] = Except.error (unhealthyErr id) := by
  have hex : deviceExists devs id = true := find_imp_exists devs id dev hfind
  have h1 : validateIds devs [] [id] = Except.error (unhealthyErr id) := by
    simp [validateIds, hex, hfind, hH]
  show allocateLoop order devs [] [[id]] = _
  rw [allocateLoop, h1]

/-- Claim C5: on a health event naming a device `d` of the sequence, the
handler's next send on the open stream is the full device sequence (not a
delta) in which every device carrying `d`'s id is marked Unhealthy and
every other position is unchanged from the previous send; and a subsequent
`Allocate` naming `d` fails with the UnhealthyDevice error. -/
theorem C5_health_event (devs : List Device) (id : String) (rest : List LWEvent)
    (order : List String → List String) (h : ∃ d ∈ devs, d.ID = id) :
    lwLoop devs (LWEvent.health id :: rest)
        = markUnhealthy devs id :: lwLoop (markUnhealthy devs id) rest ∧
    (∀ (i : Nat) (d : Device), devs[i]? = some d →
        (markUnhealthy devs id)[i]?
          = some (if d.ID = id then { d with Health := Unhealthy } else d)) ∧
    (∀ d ∈ markUnhealthy devs id, d.ID = id → d.Health = Unhealthy) ∧
    Allocate order (markUnhealthy devs id) [[id]] = Except.error (unhealthyErr id) := by
  refine ⟨rfl, ?_, markUnhealthy_marked devs id, ?_⟩
  · intro i d hd
    simp [markUnhealthy, List.getElem?_map, hd]
  · obtain ⟨d0, hd0mem, hd0id⟩ := h
    have hex : deviceExists (markUnhealthy devs id) id = true := by
      rw [deviceExists]
      refine List.any_eq_true.2
        ⟨if d0.ID = id then { d0 with Health := Unhealthy } else d0, ?_, ?_⟩
      · exact List.mem_map_of_mem _ hd0mem
      · simp [markUnhealthy_preserves_id, hd0id]
    obtain ⟨dev, hfind⟩ := exists_imp_find (markUnhealthy devs id) id hex
    have hdevmem : dev ∈ markUnhealthy devs id := by
      have h1 := hfind
      rw [getDeviceById] at h1
      exact List.mem_of_find?_eq_some h1
    have hdevid : dev.ID = id := by
      have h1 := hfind
      rw [getDeviceById] at h1
      have h2 := List.find?_some h1
      simpa using h2
    have hdevH : dev.Health = Unhealthy := markUnhealthy_marked devs id dev hdevmem hdevid
    refine allocate_unhealthy order _ id dev hfind ?_
    rw [hdevH]
    decide

/-- Claim C5 witness: a single healthy device, its health event, then an
`Allocate` naming it. -/
theorem C5_witness :
    Allocate (fun l => l) (markUnhealthy [{ ID := "a-0", Health := Healthy }] "a-0")
        [["a-0"]]
      = Except.error (unhealthyErr "a-0") :=
  (C5_health_event [{ ID := "a-0", Health := Healthy }] "a-0" [] (fun l => l)
    ⟨{ ID := "a-0", Health := Healthy }, List.mem_singleton.2 rfl, rfl⟩).2.2.2

/-- One step of any operation preserves unhealthiness of a device id. -/
lemma applyOp_unhealthy (devs : List Device) (id : String) (op : Op)
    (h : ∀ d ∈ devs, d.ID = id → d.Health = Unhealthy) :
    ∀ d ∈ applyOp devs op, d.ID = id → d.Health = Unhealthy := by
  cases op with
  | healthEvent j =>
    intro d hd hdid
    simp only [applyOp, markUnhealthy] at hd
    obtain ⟨d0, hd0, rfl⟩ := List.mem_map.1 hd
    by_cases h0 : d0.ID = j
    · simp [h0]
    · rw [if_neg h0] at hdid ⊢
      exact h d0 hd0 hdid
  | allocate reqs => exact h
  | stopOp => exact h

/-- Any sequence of operations preserves unhealthiness of a device id. -/
lemma applyOps_unhealthy (ops : List Op) : ∀ (devs : List Device) (id : String),
    (∀ d ∈ devs, d.ID = id → d.Health = Unhealthy) →
    ∀ d ∈ applyOps devs ops, d.ID = id → d.Health = Unhealthy := by
  induction ops with
  | nil => intro devs id h; exact h
  | cons op rest ih =>
    intro devs id h
    exact ih (applyOp devs op) id (applyOp_unhealthy devs id op h)

/-- Claim C6: health degradation is monotonic.  Across any sequence of
operations (health events, `Allocate` calls, `Stop`), a device that is
Unhealthy never transitions back to Healthy; and the health-event handler
of the streaming loop is the only operation that mutates the device
sequence at all — every other operation leaves it unchanged. -/
theorem C6_health_monotonic (devs : List Device) (ops : List Op) (id : String)
    (h : ∀ d ∈ devs, d.ID = id → d.Health = Unhealthy) :
    (∀ d ∈ applyOps devs ops, d.ID = id → d.Health = Unhealthy) ∧
    (∀ (ds : List Device) (op : Op), (∀ j : String, op ≠ Op.healthEvent j) →
      applyOp ds op = ds) := by
  refine ⟨applyOps_unhealthy ops devs id h, ?_⟩
  intro ds op hop
  cases op with
  | healthEvent j => exact absurd rfl (hop j)
  | allocate reqs => rfl
  | stopOp => rfl

/-- Claim C6 witness: an `Allocate` operation leaves the device sequence of
one Unhealthy device unchanged. -/
theorem C6_witness :
    applyOp [{ ID := "a-0", Health := Unhealthy }] (Op.allocate [["a-0"]])
      = [{ ID := "a-0", Health := Unhealthy }] :=
  (C6_health_monotonic [{ ID := "a-0", Health := Unhealthy }] [] "a-0"
      (by decide)).2
    [{ ID := "a-0", Health := Unhealthy }] (Op.allocate [["a-0"]])
    (fun j hj => Op.noConfusion hj)

end VGPU
